import Mathlib

/-!
Shallow embedding of the proxysix repository (a Go CLI client for the
proxy6.net service) for checking its natural-language specification.

The embedding covers:
* the error taxonomy of `pkg/client` (GeneralError, RequestError, ParseError)
  together with the entities sentinel error and `fmt.Errorf("...: %w", err)`
  wrapping, as one inductive `GoError`;
* `strconv.Atoi` (base-10 signed integer parsing with the 64-bit `int` range);
* `strings.ToLower` / `strings.EqualFold` via the Unicode simple case
  mapping, restricted to the mappings whose result is ASCII — which makes
  the model extensionally exact for every comparison this code performs,
  all of which are against ASCII literals;
* the `entities` domain model: `ProxyType`, `ParseProxyType`, `Sensitive`,
  `Proxy` (with `time.Time` values modelled as UNIX seconds, since the code
  only ever constructs them via `time.Unix(sec, 0)`);
* the `client` package: `ProxyState`, `ParseProxyState`, the raw wire record
  and response envelope, `baseResponse.isError`, `doRequest` (with the HTTP
  transport result and the JSON decoder as explicit inputs), `loadAllProxies`,
  `mapProxyToEntity`, `mapProxyResponse` and `ListProxies`;
* the error accessors `GetCode` / `GetMessage` (`errors.As` walks the
  `fmt.Errorf` wrap chain).

Go's `(value, error)` returns become `Except GoError α` (an `error` result in
Go is accompanied by a zero/`nil` value, e.g. the `nil` proxy slice); the one
function that meaningfully returns both a value and an error,
`ParseProxyType`, is modelled as a pair.
-/

namespace Proxysix

/-- Error model: `GeneralError`, `RequestError` and `ParseError` from
`pkg/client/errors.go`, the string-based `entities.Error` sentinel type, the
`strconv.NumError` produced by `Atoi`, and wrapping by
`fmt.Errorf("style: %w", err)` which keeps the inner error visible to
`errors.As` / `errors.Is`. -/
inductive GoError where
  | general (msg : String)
  | request (code : Int) (msg : String)
  | parse (name : String) (reason : String)
  | entityErr (msg : String)
  | numError (fn : String) (num : String) (isRange : Bool)
  | wrapped (pre : String) (inner : GoError)
deriving DecidableEq, Repr

/-- The sentinel `entities.ErrWrongProxyType`. -/
def ErrWrongProxyType : GoError := .entityErr "wrong proxy type"

/-- Rendering of each error kind's `Error()` method.  `RequestError.Error`
is `"unexpected code <code>"` with `": <msg>"` appended when the message is
non-empty; `ParseError.Error` is `"parsing <name>: <reason>"`; wrapping
prepends the format prefix. -/
def GoError.errorString : GoError → String
  | .general msg => msg
  | .request code msg =>
      if msg = "" then "unexpected code " ++ toString code
      else "unexpected code " ++ toString code ++ ": " ++ msg
  | .parse name reason => "parsing " ++ name ++ ": " ++ reason
  | .entityErr msg => msg
  | .numError fn num isRange =>
      "strconv." ++ fn ++ ": parsing " ++ num ++
        (if isRange then ": value out of range" else ": invalid syntax")
  | .wrapped pre inner => pre ++ inner.errorString

/-- The `errors.As(err, &RequestError{})` test: walk the wrap chain looking
for a `RequestError`. -/
def GoError.asRequest : GoError → Option (Int × String)
  | .request code msg => some (code, msg)
  | .wrapped _ inner => inner.asRequest
  | _ => none

/-- `client.GetCode`: the code of the innermost-reachable `RequestError`,
`-1` when the error is not a `RequestError`. -/
def GetCode (err : GoError) : Int :=
  match err.asRequest with
  | some (code, _) => code
  | none => -1

/-- `strconv.Atoi`: optional single sign, then one or more ASCII digits;
anything else is a syntax error, and a value outside the 64-bit `int` range
is a range error. -/
def goAtoi (s : String) : Except GoError Int :=
  let chars := s.toList
  match chars with
  | [] => .error (.numError "Atoi" s false)
  | c :: rest =>
    let neg := c = '-'
    let digits := if c = '-' ∨ c = '+' then rest else chars
    if digits = [] then .error (.numError "Atoi" s false)
    else if digits.all Char.isDigit then
      let n : Nat := digits.foldl (fun acc c => acc * 10 + (c.toNat - 48)) 0
      let v : Int := if neg then -(n : Int) else (n : Int)
      if v < -(2 ^ 63) ∨ 2 ^ 63 - 1 < v then .error (.numError "Atoi" s true)
      else .ok v
    else .error (.numError "Atoi" s false)

/-- The per-rune case mapping of `strings.ToLower` (`unicode.ToLower`,
the Unicode simple lowercase mapping), restricted to the mappings whose
result is ASCII: the letters A–Z, plus the only two other runes whose
simple lowercase is an ASCII character — U+0130 LATIN CAPITAL LETTER I
WITH DOT ABOVE → i and U+212A KELVIN SIGN → k.  Every other rune either
is fixed by `unicode.ToLower` or maps to a non-ASCII rune, so leaving it
unchanged cannot change whether the lowered string equals an ASCII
string; the results of `goToLower` in this development are only ever
compared against ASCII literals, on which the restriction is exact. -/
def goCharToLower (c : Char) : Char :=
  if 'A' ≤ c ∧ c ≤ 'Z' then Char.ofNat (c.toNat + 32)
  else if c = 'İ' then 'i'
  else if c = 'K' then 'k'
  else c

/-- `strings.ToLower`: apply the simple lowercase mapping to every rune
(the special multi-rune casings belong to `ToLowerSpecial`, which this
code does not use). -/
def goToLower (s : String) : String :=
  String.mk (s.toList.map goCharToLower)

/-- `strings.EqualFold`: equality under simple case folding, modelled as
equality after simple lower-casing.  The code calls it only as
`EqualFold(active, "1")`, where both renderings agree: no rune besides
`'1'` itself folds or lowercases to `'1'`. -/
def goEqualFold (s t : String) : Bool :=
  goToLower s = goToLower t

/-- One character of `s` matches the corresponding character of the
lower-case pattern `t` when it is equal to it or simple-lowercases to it
(so 'A' matches 'a', and 'İ' matches 'i'). -/
def caseVariantChar (a b : Char) : Bool :=
  a = b || goCharToLower a = b

/-- The string `s` is a case variant of the (lower-case ASCII) string
`t`: same length, and character-wise each position agrees up to the
simple case mapping. -/
def caseVariant (s t : String) : Bool :=
  s.toList.length = t.toList.length &&
    (s.toList.zip t.toList).all fun p => caseVariantChar p.1 p.2

/-- `entities.ProxyType`. -/
inductive ProxyType where
  | unknown
  | http
  | socks
deriving DecidableEq, Repr

/-- `entities.ParseProxyType`: exact match against `"http"` / `"socks"`;
any other value yields `ProxyTypeUnknown` together with
`fmt.Errorf("type %s: %w", value, ErrWrongProxyType)`. -/
def ParseProxyType (value : String) : ProxyType × Option GoError :=
  if value = "http" then (.http, none)
  else if value = "socks" then (.socks, none)
  else (.unknown, some (.wrapped ("type " ++ value ++ ": ") ErrWrongProxyType))

/-- `entities.Sensitive[T]`: a wrapped value plus the `allow` flag. -/
structure Sensitive (T : Type) where
  value : T
  allow : Bool
deriving DecidableEq, Repr

/-- `entities.NewSensitive`: wrap a value with the flag down. -/
def NewSensitive {T : Type} (value : T) : Sensitive T :=
  { value := value, allow := false }

/-- `Sensitive.MarshalText`: the wrapped value's `fmt.Sprintf("%v", ·)` text
when allowed, the fixed mask `"***"` otherwise.  The default `%v` rendering
is passed in as `format`. -/
def Sensitive.marshalText {T : Type} (format : T → String) (s : Sensitive T) : String :=
  if s.allow then format s.value else "***"

/-- `Sensitive.Allow`: raise the flag (the receiver is a pointer in Go;
here the updated record). -/
def Sensitive.allowOp {T : Type} (s : Sensitive T) : Sensitive T :=
  { s with allow := true }

/-- `entities.Proxy`.  `Date` and `ExpireDate` are `time.Time` values built
with `time.Unix(sec, 0)`, modelled by their UNIX-epoch second offsets. -/
structure Proxy where
  id : String
  host : String
  port : Nat
  user : String
  password : Sensitive String
  type : ProxyType
  country : String
  date : Int
  expireDate : Int
  description : String
  active : Bool
deriving DecidableEq, Repr

/-- `client.ProxyState`. -/
inductive ProxyState where
  | unknown
  | active
  | expired
  | expiring
  | all
deriving DecidableEq, Repr

/-- `ProxyState.String`. -/
def ProxyState.toStr : ProxyState → String
  | .all => "all"
  | .expiring => "expiring"
  | .expired => "expired"
  | .active => "active"
  | .unknown => ""

/-- `client.ParseProxyState`: lower-case the input and match it against the
four known names; otherwise a `ParseError` on field `"state"`. -/
def ParseProxyState (value : String) : Except GoError ProxyState :=
  let lv := goToLower value
  if lv = ProxyState.all.toStr then .ok .all
  else if lv = ProxyState.expiring.toStr then .ok .expiring
  else if lv = ProxyState.expired.toStr then .ok .expired
  else if lv = ProxyState.active.toStr then .ok .active
  else .error (.parse "state" ("unsupported value " ++ value))

/-- The raw wire record (`client.proxy`), all fields as decoded from JSON. -/
structure rawProxy where
  id : String
  host : String
  port : String
  user : String
  pass : String
  type : String
  country : String
  date : String
  dateEnd : String
  unixtime : Int
  unixtimeEnd : Int
  descr : String
  active : String
deriving DecidableEq, Repr

/-- The decoded response envelope (`client.proxyResponse`, with the
embedded `baseResponse` fields flattened). -/
structure proxyResponse where
  status : String
  errorID : Int
  error : String
  listCount : Int
  list : List rawProxy
deriving DecidableEq, Repr

/-- `baseResponse.isError`: the envelope signals a provider-level failure. -/
def proxyResponse.isError (b : proxyResponse) : Bool :=
  b.status = "no" || 0 < b.errorID || b.error ≠ ""

/-- `client.mapProxyToEntity`: parse the port with `strconv.Atoi` (wrapping
a failure as `"parsing port: %w"`), parse the type (wrapping a failure as
`"parsing proxy type: %w"`), then build the entity.  `uint16(port)`
truncates the parsed `int` to its low 16 bits, and `Active` is
`strings.EqualFold(proxy.Active, "1")`. -/
def mapProxyToEntity (p : rawProxy) : Except GoError Proxy :=
  match goAtoi p.port with
  | .error err => .error (.wrapped "parsing port: " err)
  | .ok port =>
    match ParseProxyType p.type with
    | (_, some err) => .error (.wrapped "parsing proxy type: " err)
    | (proxyType, none) =>
      .ok {
        id := p.id
        host := p.host
        port := (port % 65536).toNat
        user := p.user
        password := NewSensitive p.pass
        type := proxyType
        country := p.country
        date := p.unixtime
        expireDate := p.unixtimeEnd
        description := p.descr
        active := goEqualFold p.active "1"
      }

/-- The loop body of `client.mapProxyResponse`: map the records in order,
aborting with the first mapping error (Go returns `(nil, err)` then). -/
def mapProxiesList : List rawProxy → Except GoError (List Proxy)
  | [] => .ok []
  | item :: rest =>
    match mapProxyToEntity item with
    | .error err => .error err
    | .ok p =>
      match mapProxiesList rest with
      | .error err => .error err
      | .ok ps => .ok (p :: ps)

/-- `client.mapProxyResponse` (the `ListCount` field only presizes the
slice and does not affect the result). -/
def mapProxyResponse (response : proxyResponse) : Except GoError (List Proxy) :=
  mapProxiesList response.list

/-- The HTTP transport result handed to `doRequest`: status code and the
fully read body. -/
structure httpResponse where
  statusCode : Int
  body : String
deriving DecidableEq, Repr

/-- `client.doRequest` after a successful transport call: when the status
code is at least 400 (`http.StatusBadRequest`) fail with a `RequestError`
carrying the status code and the raw body; otherwise decode the body
(`json.Unmarshal`, passed in as `decode`), wrapping a decoding failure as
`"decoding json: %w"`. -/
def doRequest (resp : httpResponse)
    (decode : String → Except GoError proxyResponse) : Except GoError proxyResponse :=
  if 400 ≤ resp.statusCode then
    .error (.request resp.statusCode resp.body)
  else
    match decode resp.body with
    | .error err => .error (.wrapped "decoding json: " err)
    | .ok value => .ok value

/-- `client.loadAllProxies` downstream of the transport: run `doRequest`,
then fail with `RequestError{code: ErrorID, msg: Error}` when the decoded
envelope signals a provider-level error. -/
def loadAllProxies (resp : httpResponse)
    (decode : String → Except GoError proxyResponse) : Except GoError proxyResponse :=
  match doRequest resp decode with
  | .error err => .error err
  | .ok response =>
    if response.isError then
      .error (.request response.errorID response.error)
    else
      .ok response

/-- `client.ListProxies`: load, then map; either stage's error is returned
as is (with a `nil` proxy slice in Go). -/
def ListProxies (resp : httpResponse)
    (decode : String → Except GoError proxyResponse) : Except GoError (List Proxy) :=
  match loadAllProxies resp decode with
  | .error err => .error err
  | .ok response => mapProxyResponse response

end Proxysix
deriving instance DecidableEq for Except

namespace Proxysix

lemma variantList_iff (xs ys : List Char) (hys : ys.map goCharToLower = ys) :
    (xs.length = ys.length ∧ ((xs.zip ys).all fun p => caseVariantChar p.1 p.2) = true) ↔
      xs.map goCharToLower = ys := by
  induction xs generalizing ys with
  | nil =>
    cases ys with
    | nil => simp
    | cons b bs => simp
  | cons a as ih =>
    cases ys with
    | nil => simp
    | cons b bs =>
      simp only [List.map_cons, List.cons.injEq] at hys
      obtain ⟨hb, hbs⟩ := hys
      have hchar : caseVariantChar a b = true ↔ goCharToLower a = b := by
        simp only [caseVariantChar, Bool.or_eq_true, decide_eq_true_eq]
        constructor
        · rintro (rfl | h)
          · exact hb
          · exact h
        · intro h
          exact Or.inr h
      simp only [List.zip_cons_cons, List.all_cons, List.length_cons, Bool.and_eq_true,
        List.map_cons, List.cons.injEq, Nat.succ_inj]
      rw [← ih bs hbs]
      constructor
      · rintro ⟨hlen, hc, hall⟩
        exact ⟨hchar.mp hc, hlen, hall⟩
      · rintro ⟨hc, hlen, hall⟩
        exact ⟨hlen, hchar.mpr hc, hall⟩

lemma caseVariant_iff (s t : String) (ht : t.toList.map goCharToLower = t.toList) :
    caseVariant s t = true ↔ goToLower s = t := by
  have hmk : String.mk t.toList = t := rfl
  simp only [caseVariant, Bool.and_eq_true, decide_eq_true_eq, goToLower]
  constructor
  · rintro ⟨hlen, hall⟩
    exact (congrArg String.mk ((variantList_iff s.toList t.toList ht).mp ⟨hlen, hall⟩)).trans hmk
  · intro h
    have hl : s.toList.map goCharToLower = t.toList := by
      have h2 := congrArg String.toList h
      simpa using h2
    exact (variantList_iff s.toList t.toList ht).mpr hl

/-- C5: every case variant of "all", "active", "expired" or "expiring" —
under the Unicode simple case mapping, so Turkish "actİve" included —
parses to the matching `ProxyState`; every other string fails with a
`ParseError` carrying the field name "state" and a reason message. -/
theorem parseProxyState_spec (s : String) :
    (caseVariant s "all" = true → ParseProxyState s = .ok .all) ∧
    (caseVariant s "active" = true → ParseProxyState s = .ok .active) ∧
    (caseVariant s "expired" = true → ParseProxyState s = .ok .expired) ∧
    (caseVariant s "expiring" = true → ParseProxyState s = .ok .expiring) ∧
    (caseVariant s "all" = false → caseVariant s "active" = false →
     caseVariant s "expired" = false → caseVariant s "expiring" = false →
     ParseProxyState s = .error (.parse "state" ("unsupported value " ++ s))) := by
  have hall := caseVariant_iff s "all" (by decide)
  have hactive := caseVariant_iff s "active" (by decide)
  have hexpired := caseVariant_iff s "expired" (by decide)
  have hexpiring := caseVariant_iff s "expiring" (by decide)
  refine ⟨?_, ?_, ?_, ?_, ?_⟩
  · intro h
    have hg := hall.mp h
    simp [ParseProxyState, ProxyState.toStr, hg]
  · intro h
    have hg := hactive.mp h
    simp [ParseProxyState, ProxyState.toStr, hg]
  · intro h
    have hg := hexpired.mp h
    simp [ParseProxyState, ProxyState.toStr, hg]
  · intro h
    have hg := hexpiring.mp h
    simp [ParseProxyState, ProxyState.toStr, hg]
  · intro h1 h2 h3 h4
    have g1 : ¬ (goToLower s = "all") := fun hg => by simp [hall.mpr hg] at h1
    have g2 : ¬ (goToLower s = "active") := fun hg => by simp [hactive.mpr hg] at h2
    have g3 : ¬ (goToLower s = "expired") := fun hg => by simp [hexpired.mpr hg] at h3
    have g4 : ¬ (goToLower s = "expiring") := fun hg => by simp [hexpiring.mpr hg] at h4
    simp [ParseProxyState, ProxyState.toStr, g1, g2, g3, g4]

/-- C5 witness: the mixed-case "AcTiVe" and the Unicode variant "actİve"
(U+0130 simple-lowercases to i) both parse to `active`, and "bogus" fails
with the expected parse error. -/
theorem parseProxyState_spec_witness :
    ParseProxyState "AcTiVe" = .ok .active ∧
    ParseProxyState "actİve" = .ok .active ∧
    ParseProxyState "bogus" = .error (.parse "state" "unsupported value bogus") :=
  ⟨(parseProxyState_spec "AcTiVe").2.1 (by decide),
   (parseProxyState_spec "actİve").2.1 (by decide),
   (parseProxyState_spec "bogus").2.2.2.2 (by decide) (by decide) (by decide) (by decide)⟩

/-- C6: `ParseProxyType` succeeds exactly on "http" and "socks" (exact
case), returning the matching enum; every other string, case variants
included, yields `ProxyTypeUnknown` together with the wrong-proxy-type
sentinel wrapped with the offending value. -/
theorem parseProxyType_spec :
    ParseProxyType "http" = (.http, none) ∧
    ParseProxyType "socks" = (.socks, none) ∧
    ∀ s : String, s ≠ "http" → s ≠ "socks" →
      ParseProxyType s =
        (.unknown, some (.wrapped ("type " ++ s ++ ": ") ErrWrongProxyType)) := by
  refine ⟨by decide, by decide, ?_⟩
  intro s h1 h2
  simp [ParseProxyType, h1, h2]

/-- C6 witness: the case variant "HTTP" is rejected with the wrapped
sentinel error. -/
theorem parseProxyType_spec_witness :
    ParseProxyType "HTTP" =
      (.unknown, some (.wrapped ("type " ++ "HTTP" ++ ": ") ErrWrongProxyType)) :=
  parseProxyType_spec.2.2 "HTTP" (by decide) (by decide)

/-- C7: before `Allow` the marshalled text is the fixed mask "***"; after
`Allow` it is the wrapped value's default text form; `Allow` raises the
flag, leaves the value unchanged, and no operation lowers the flag again
(`marshalText` is read-only, and applying `Allow` to any state yields the
allowed state). -/
theorem sensitive_redaction_spec (T : Type) (format : T → String) (v : T)
    (s : Sensitive T) :
    Sensitive.marshalText format (NewSensitive v) = "***" ∧
    Sensitive.marshalText format (Sensitive.allowOp s) = format s.value ∧
    (Sensitive.allowOp s).allow = true ∧
    (Sensitive.allowOp s).value = s.value := by
  refine ⟨rfl, ?_, rfl, rfl⟩
  simp [Sensitive.marshalText, Sensitive.allowOp]

/-- C7 witness: concrete secret string before and after `Allow`. -/
theorem sensitive_redaction_spec_witness :
    Sensitive.marshalText id (NewSensitive "hunter2") = "***" ∧
    Sensitive.marshalText id (Sensitive.allowOp (NewSensitive "hunter2")) = "hunter2" :=
  ⟨(sensitive_redaction_spec String id "hunter2" (NewSensitive "hunter2")).1,
   (sensitive_redaction_spec String id "hunter2" (NewSensitive "hunter2")).2.1⟩

/-- C9: a `RequestError` renders as "unexpected code <code>" when the
message is empty and "unexpected code <code>: <message>" otherwise. -/
theorem requestError_rendering (code : Int) (msg : String) :
    (msg = "" → (GoError.request code msg).errorString = "unexpected code " ++ toString code) ∧
    (msg ≠ "" → (GoError.request code msg).errorString =
      "unexpected code " ++ toString code ++ ": " ++ msg) := by
  constructor
  · intro h
    simp [GoError.errorString, h]
  · intro h
    simp [GoError.errorString, h]

/-- C9 witness: concrete renderings with an empty and a non-empty message. -/
theorem requestError_rendering_witness :
    (GoError.request 404 "").errorString = "unexpected code 404" ∧
    (GoError.request 100 "bad key").errorString = "unexpected code 100: bad key" :=
  ⟨(requestError_rendering 404 "").1 rfl,
   (requestError_rendering 100 "bad key").2 (by decide)⟩

/-- C4: when the HTTP status code is at least 400, `doRequest` fails with a
`RequestError` carrying the status code and the raw body as message, and
the result does not depend on the JSON decoder (decoding is skipped). -/
theorem doRequest_badStatus (resp : httpResponse)
    (d1 d2 : String → Except GoError proxyResponse)
    (h : 400 ≤ resp.statusCode) :
    doRequest resp d1 = .error (.request resp.statusCode resp.body) ∧
    doRequest resp d1 = doRequest resp d2 := by
  constructor
  · simp [doRequest, h]
  · simp [doRequest, h]

/-- C4 witness: a 500 response with body "oops" under two decoders that
disagree everywhere. -/
theorem doRequest_badStatus_witness :
    doRequest ⟨500, "oops"⟩ (fun _ => .error (.general "a")) = .error (.request 500 "oops") ∧
    doRequest ⟨500, "oops"⟩ (fun _ => .error (.general "a")) =
      doRequest ⟨500, "oops"⟩ (fun _ => .ok ⟨"yes", 0, "", 0, []⟩) :=
  doRequest_badStatus ⟨500, "oops"⟩ (fun _ => .error (.general "a"))
    (fun _ => .ok ⟨"yes", 0, "", 0, []⟩) (by decide)

/-- C3: with an HTTP status below 400 and a body that decodes to an
envelope signalling failure (status "no", or positive error_id, or a
non-empty error string), `loadAllProxies` fails with a `RequestError`
carrying the envelope's error_id and error message, and `GetCode` on that
error returns the error_id (not -1). -/
theorem loadAllProxies_envelopeError (resp : httpResponse)
    (decode : String → Except GoError proxyResponse) (env : proxyResponse)
    (hstatus : resp.statusCode < 400)
    (hdec : decode resp.body = .ok env)
    (herr : env.status = "no" ∨ 0 < env.errorID ∨ env.error ≠ "") :
    loadAllProxies resp decode = .error (.request env.errorID env.error) ∧
    GetCode (.request env.errorID env.error) = env.errorID := by
  have hlt : ¬ (400 ≤ resp.statusCode) := by omega
  have hiserr : env.isError = true := by
    simp only [proxyResponse.isError, Bool.or_eq_true, decide_eq_true_eq, ne_eq,
      decide_not, Bool.not_eq_eq_eq_not, Bool.not_true, decide_eq_false_iff_not]
    tauto
  constructor
  · simp [loadAllProxies, doRequest, hlt, hdec, hiserr]
  · rfl

/-- C3 witness: HTTP 200 with an envelope carrying status "no" and
error_id 100 yields a request error whose extracted code is 100. -/
theorem loadAllProxies_envelopeError_witness :
    loadAllProxies ⟨200, "body"⟩ (fun _ => .ok ⟨"no", 100, "key error", 0, []⟩) =
      .error (.request 100 "key error") ∧
    GetCode (.request 100 "key error") = 100 :=
  loadAllProxies_envelopeError ⟨200, "body"⟩
    (fun _ => .ok ⟨"no", 100, "key error", 0, []⟩) ⟨"no", 100, "key error", 0, []⟩
    (by decide) rfl (Or.inl rfl)

/-- Helper: if some record of the list fails to map, the whole mapping
returns a mapping error of some record of the list (in fact the first
failing one), and in particular no list of entities. -/
lemma mapProxiesList_error_of_mem (l : List rawProxy) (item : rawProxy) (e : GoError)
    (hmem : item ∈ l) (hbad : mapProxyToEntity item = .error e) :
    ∃ e2, mapProxiesList l = .error e2 ∧
      ∃ it ∈ l, mapProxyToEntity it = .error e2 := by
  induction l with
  | nil => cases hmem
  | cons x rest ih =>
    cases hx : mapProxyToEntity x with
    | error e0 =>
      refine ⟨e0, ?_, x, List.mem_cons_self x rest, hx⟩
      simp [mapProxiesList, hx]
    | ok p =>
      have hmem' : item ∈ rest := by
        rcases List.mem_cons.mp hmem with rfl | h
        · rw [hx] at hbad
          cases hbad
        · exact h
      obtain ⟨e2, hmap, it, hit, hbad2⟩ := ih hmem'
      refine ⟨e2, ?_, it, List.mem_cons_of_mem x hit, hbad2⟩
      simp [mapProxiesList, hx, hmap]

/-- C2: when the transport succeeds (status below 400), the body decodes to
an envelope that does not signal a provider error, and some record of the
envelope's list fails to map, `ListProxies` returns a record-mapping error
(the error branch of the result, carrying no proxy list — Go returns the
error with a nil slice): no partial list of the successfully mapped
records is produced. -/
theorem listProxies_abortsOnBadRecord (resp : httpResponse)
    (decode : String → Except GoError proxyResponse) (env : proxyResponse)
    (item : rawProxy) (e : GoError)
    (hstatus : resp.statusCode < 400)
    (hdec : decode resp.body = .ok env)
    (hok : env.isError = false)
    (hmem : item ∈ env.list)
    (hbad : mapProxyToEntity item = .error e) :
    ∃ e2, ListProxies resp decode = .error e2 ∧
      ∃ it ∈ env.list, mapProxyToEntity it = .error e2 := by
  have hlt : ¬ (400 ≤ resp.statusCode) := by omega
  have hload : loadAllProxies resp decode = .ok env := by
    simp [loadAllProxies, doRequest, hlt, hdec, hok]
  obtain ⟨e2, hmap, hw⟩ := mapProxiesList_error_of_mem env.list item e hmem hbad
  refine ⟨e2, ?_, hw⟩
  simp [ListProxies, hload, mapProxyResponse, hmap]

/-- C2 witness: an envelope whose single record has the non-numeric port
"abc" makes the whole list operation fail. -/
theorem listProxies_abortsOnBadRecord_witness :
    ∃ e2, ListProxies ⟨200, "body"⟩
        (fun _ => .ok ⟨"yes", 0, "", 1,
          [⟨"1", "h", "abc", "u", "p", "http", "ru", "", "", 0, 0, "", "1"⟩]⟩) = .error e2 ∧
      ∃ it ∈ [(⟨"1", "h", "abc", "u", "p", "http", "ru", "", "", 0, 0, "", "1"⟩ : rawProxy)],
        mapProxyToEntity it = .error e2 :=
  listProxies_abortsOnBadRecord ⟨200, "body"⟩
    (fun _ => .ok ⟨"yes", 0, "", 1,
      [⟨"1", "h", "abc", "u", "p", "http", "ru", "", "", 0, 0, "", "1"⟩]⟩)
    ⟨"yes", 0, "", 1, [⟨"1", "h", "abc", "u", "p", "http", "ru", "", "", 0, 0, "", "1"⟩]⟩
    ⟨"1", "h", "abc", "u", "p", "http", "ru", "", "", 0, 0, "", "1"⟩
    (.wrapped "parsing port: " (.numError "Atoi" "abc" false))
    (by decide) rfl rfl (List.mem_singleton.mpr rfl) (by decide)

/-- C8: mapping any raw record whose port is "8080", type "http", both
timestamps 0 and active flag "1" succeeds with Port 8080, Type HTTP, Date
the UNIX epoch and Active true (the remaining string fields are
unconstrained); and in general the Active flag of any successfully mapped
record is the case-insensitive equality of the record's active string with
"1". -/
theorem mapProxy_roundTrip :
    (∀ rec : rawProxy, rec.port = "8080" → rec.type = "http" → rec.unixtime = 0 →
      rec.unixtimeEnd = 0 → rec.active = "1" →
      ∃ p, mapProxyToEntity rec = .ok p ∧
        p.port = 8080 ∧ p.type = .http ∧ p.date = 0 ∧ p.active = true) ∧
    (∀ (rec : rawProxy) (p : Proxy), mapProxyToEntity rec = .ok p →
      p.active = goEqualFold rec.active "1") := by
  constructor
  · intro rec hport htype hdate hdateEnd hactive
    have hA : goAtoi "8080" = .ok 8080 := by decide
    have hT : ParseProxyType "http" = (.http, none) := by decide
    have hf : goEqualFold "1" "1" = true := by decide
    have hmap : mapProxyToEntity rec = .ok {
        id := rec.id, host := rec.host, port := ((8080 : Int) % 65536).toNat,
        user := rec.user, password := NewSensitive rec.pass, type := .http,
        country := rec.country, date := rec.unixtime, expireDate := rec.unixtimeEnd,
        description := rec.descr, active := goEqualFold rec.active "1" } := by
      simp [mapProxyToEntity, hport, hA, htype, hT]
    refine ⟨_, hmap, rfl, rfl, hdate, ?_⟩
    rw [hactive]
    exact hf
  · intro rec p h
    cases hA : goAtoi rec.port with
    | error e0 => simp [mapProxyToEntity, hA] at h
    | ok n =>
      rcases hT : ParseProxyType rec.type with ⟨pt, e⟩
      cases e with
      | some err => simp [mapProxyToEntity, hA, hT] at h
      | none =>
        simp only [mapProxyToEntity, hA, hT, Except.ok.injEq] at h
        rw [← h]

/-- C8 witness: the concrete record of the claim, plus a record whose
active string "0" maps to an inactive proxy. -/
theorem mapProxy_roundTrip_witness :
    (∃ p, mapProxyToEntity
        ⟨"i", "h", "8080", "u", "pw", "http", "ru", "d", "de", 0, 0, "ds", "1"⟩ = .ok p ∧
      p.port = 8080 ∧ p.type = .http ∧ p.date = 0 ∧ p.active = true) ∧
    (⟨"", "", 1, "", NewSensitive "", .socks, "", 0, 0, "", false⟩ : Proxy).active =
      goEqualFold "0" "1" :=
  ⟨mapProxy_roundTrip.1 ⟨"i", "h", "8080", "u", "pw", "http", "ru", "d", "de", 0, 0, "ds", "1"⟩
     rfl rfl rfl rfl rfl,
   mapProxy_roundTrip.2 ⟨"", "", "1", "", "", "socks", "", "", "", 0, 0, "", "0"⟩
     ⟨"", "", 1, "", NewSensitive "", .socks, "", 0, 0, "", false⟩ (by decide)⟩

/-- C10: whenever the port string parses (to any integer n, negative or
above 65535 included) and the type string is "http" or "socks", mapping
succeeds and the resulting Port is n reduced modulo 2^16; no range or sign
check is performed. -/
theorem mapProxy_port_truncation (rec : rawProxy) (n : Int)
    (hport : goAtoi rec.port = .ok n)
    (htype : rec.type = "http" ∨ rec.type = "socks") :
    ∃ p, mapProxyToEntity rec = .ok p ∧ (p.port : Int) = n % 65536 := by
  have hT : ∃ pt, ParseProxyType rec.type = (pt, none) := by
    rcases htype with h | h <;> rw [h]
    · exact ⟨.http, rfl⟩
    · exact ⟨.socks, rfl⟩
  obtain ⟨pt, hT⟩ := hT
  have hmap : mapProxyToEntity rec = .ok {
      id := rec.id, host := rec.host, port := (n % 65536).toNat, user := rec.user,
      password := NewSensitive rec.pass, type := pt, country := rec.country,
      date := rec.unixtime, expireDate := rec.unixtimeEnd, description := rec.descr,
      active := goEqualFold rec.active "1" } := by
    simp [mapProxyToEntity, hport, hT]
  exact ⟨_, hmap, Int.toNat_of_nonneg (Int.emod_nonneg n (by decide))⟩

/-- C10 witness: port "70000" with type "socks" maps successfully to port
70000 mod 65536 = 4464. -/
theorem mapProxy_port_truncation_witness :
    ∃ p, mapProxyToEntity ⟨"", "", "70000", "", "", "socks", "", "", "", 0, 0, "", ""⟩ =
        .ok p ∧ (p.port : Int) = 70000 % 65536 :=
  mapProxy_port_truncation ⟨"", "", "70000", "", "", "socks", "", "", "", 0, 0, "", ""⟩
    70000 (by decide) (Or.inr rfl)

/-- C1 counterexample: the port string "-1" parses to the negative integer
-1, yet mapping the record succeeds (with the truncated port 65535) —
contradicting the claim that a negative parsed port causes mapping to
fail. -/
theorem mapProxy_negativePort_succeeds :
    goAtoi "-1" = .ok (-1) ∧
    mapProxyToEntity ⟨"", "", "-1", "", "", "http", "", "", "", 0, 0, "", ""⟩ =
      .ok ⟨"", "", 65535, "", NewSensitive "", .http, "", 0, 0, "", false⟩ := by
  decide

/-- C1 amended: mapping succeeds exactly when the port string parses as a
(64-bit) integer — of any sign or magnitude — and the type string is one
of the two known literal tags; parsed values outside 0..65535 do not cause
failure. -/
theorem mapProxy_success_iff (rec : rawProxy) :
    (∃ p, mapProxyToEntity rec = .ok p) ↔
      ((∃ n, goAtoi rec.port = .ok n) ∧ (rec.type = "http" ∨ rec.type = "socks")) := by
  constructor
  · rintro ⟨p, hp⟩
    cases hA : goAtoi rec.port with
    | error e => simp [mapProxyToEntity, hA] at hp
    | ok n =>
      refine ⟨⟨n, rfl⟩, ?_⟩
      by_cases h1 : rec.type = "http"
      · exact Or.inl h1
      by_cases h2 : rec.type = "socks"
      · exact Or.inr h2
      simp [mapProxyToEntity, hA, ParseProxyType, h1, h2] at hp
  · rintro ⟨⟨n, hn⟩, htype⟩
    have hT : ∃ pt, ParseProxyType rec.type = (pt, none) := by
      rcases htype with h | h <;> rw [h]
      · exact ⟨.http, rfl⟩
      · exact ⟨.socks, rfl⟩
    obtain ⟨pt, hT⟩ := hT
    have hmap : mapProxyToEntity rec = .ok {
        id := rec.id, host := rec.host, port := (n % 65536).toNat, user := rec.user,
        password := NewSensitive rec.pass, type := pt, country := rec.country,
        date := rec.unixtime, expireDate := rec.unixtimeEnd, description := rec.descr,
        active := goEqualFold rec.active "1" } := by
      simp [mapProxyToEntity, hn, hT]
    exact ⟨_, hmap⟩

/-- C1 amended witness: a record with port "9" and type "socks" maps
successfully. -/
theorem mapProxy_success_iff_witness :
    ∃ p, mapProxyToEntity ⟨"", "", "9", "", "", "socks", "", "", "", 0, 0, "", ""⟩ = .ok p :=
  (mapProxy_success_iff ⟨"", "", "9", "", "", "socks", "", "", "", 0, 0, "", ""⟩).mpr
    ⟨⟨9, by decide⟩, Or.inr rfl⟩

end Proxysix
